import Mathlib

/-!
Shallow embedding of the planar 2-link kinematics core of this repository:
the module `src/kinematics.py` is embedded in namespace `Kinematics`, and the
duplicated copy of the core living in `src/main.py` is embedded in namespace
`MainApp`.  Machine floating-point numbers are modelled by real numbers, and
Python exceptions (`IndexError` from `links[0]` / `links[1]` on a short list,
`ZeroDivisionError` from a zero divisor) are modelled by `Except PyError`.
Python dictionaries (insertion ordered, string keyed) are modelled by
association lists looked up with `lookupKey`.
-/

/-- Embeds the `JointType` enum: only `REVOLUTE` is defined. -/
inductive JointType where
  | REVOLUTE
  deriving DecidableEq, Repr

/-- Embeds the `Joint` dataclass: identifier, joint type, angle in radians. -/
structure Joint where
  id : String
  type : JointType
  angle : ℝ

/-- Embeds the `Link` dataclass: identifier and length. -/
structure Link where
  id : String
  length : ℝ

/-- Embeds `Union[Joint, Link]`, the component type of a robot. -/
inductive Component where
  | joint : Joint → Component
  | link : Link → Component

/-- Embeds the `Robot` dataclass: an ordered component list and a base
position, `(0.0, 0.0)` in the source. -/
structure Robot where
  components : List Component
  base : ℝ × ℝ := (0, 0)

/-- Python runtime errors the kinematics core can raise. -/
inductive PyError where
  | indexError
  | zeroDivisionError
  deriving DecidableEq, Repr

/-- First-match lookup in a string-keyed association list; models indexing a
Python `dict` (whose keys are unique) by a string key. -/
def lookupKey {α : Type} (k : String) : List (String × α) → Option α
  | [] => none
  | (k2, v) :: rest => if k2 = k then some v else lookupKey k rest

/-- Models `math.atan2(y, x)` from the Python standard library (the C
`atan2`), on real numbers: the angle of the point `(x, y)`, in `(-π, π]`,
with `atan2 0 0 = 0`. -/
noncomputable def atan2 (y x : ℝ) : ℝ :=
  if 0 < x then Real.arctan (y / x)
  else if x < 0 then
    (if 0 ≤ y then Real.arctan (y / x) + Real.pi
     else Real.arctan (y / x) - Real.pi)
  else
    (if 0 < y then Real.pi / 2
     else if y < 0 then -(Real.pi / 2)
     else 0)

/-- The result type of inverse kinematics: a mapping from branch name to a
mapping from joint identifier to `Joint`. -/
abbrev IKResult := List (String × List (String × Joint))

namespace Kinematics

/-- The loop of `forward_kinematics` in `src/kinematics.py`: starting from
position `(x, y)` and running direction `direction`, process the remaining
components, appending the current position once per component (a `Joint` only
adds its angle to the direction; a `Link` moves the position). -/
noncomputable def fkAux (x y direction : ℝ) : List Component → List (ℝ × ℝ)
  | [] => []
  | Component.joint j :: rest =>
      (x, y) :: fkAux x y (direction + j.angle) rest
  | Component.link l :: rest =>
      (x + l.length * Real.cos direction, y + l.length * Real.sin direction) ::
        fkAux (x + l.length * Real.cos direction)
          (y + l.length * Real.sin direction) direction rest

/-- Embeds `forward_kinematics` from `src/kinematics.py`: the base position
followed by one traced position per component. -/
noncomputable def forward_kinematics (robot : Robot) : List (ℝ × ℝ) :=
  robot.base :: fkAux robot.base.1 robot.base.2 0 robot.components

/-- Embeds `inverse_kinematics_2dof` from `src/kinematics.py`.  Reading
`links[0]` or `links[1]` on a list shorter than two raises `IndexError`; the
divisions for `C` and `B` raise `ZeroDivisionError` on a zero divisor; if `C`
is outside `[-1, 1]` the empty mapping is returned; otherwise the two branch
solutions `"elbow_up"` and `"elbow_down"` are returned. -/
noncomputable def inverse_kinematics_2dof (links : List Link)
    (target_end_effector_pos : ℝ × ℝ) : Except PyError IKResult :=
  match links with
  | [] => Except.error PyError.indexError
  | [_] => Except.error PyError.indexError
  | l1 :: l2 :: _ =>
      let L1 := l1.length
      let L2 := l2.length
      let x := target_end_effector_pos.1
      let y := target_end_effector_pos.2
      let d2 := x ^ 2 + y ^ 2
      let d := Real.sqrt d2
      let base_angle := atan2 y x
      if 2 * L1 * d = 0 then Except.error PyError.zeroDivisionError else
      let C := (L1 ^ 2 + d2 - L2 ^ 2) / (2 * L1 * d)
      if ¬(-1 ≤ C ∧ C ≤ 1) then Except.ok [] else
      if 2 * L1 * L2 = 0 then Except.error PyError.zeroDivisionError else
      let B := (L1 ^ 2 + L2 ^ 2 - d2) / (2 * L1 * L2)
      let c := Real.arccos C
      let b := Real.arccos B
      Except.ok
        [("elbow_up",
          [("q1", ⟨"q1", JointType.REVOLUTE, base_angle + c⟩),
           ("q2", ⟨"q2", JointType.REVOLUTE, b - Real.pi⟩)]),
         ("elbow_down",
          [("q1", ⟨"q1", JointType.REVOLUTE, base_angle - c⟩),
           ("q2", ⟨"q2", JointType.REVOLUTE, Real.pi - b⟩)])]

/-- Embeds `set_joint_angles` from `src/kinematics.py` (in-place mutation
modelled as returning the updated robot): every `Joint` component whose
identifier is a key of `new_joint_angles` gets that entry's angle; everything
else is unchanged. -/
def set_joint_angles (robot : Robot)
    (new_joint_angles : List (String × Joint)) : Robot :=
  { robot with
    components := robot.components.map fun component =>
      match component with
      | Component.joint j =>
          match lookupKey j.id new_joint_angles with
          | some j2 => Component.joint { j with angle := j2.angle }
          | none => Component.joint j
      | Component.link l => Component.link l }

end Kinematics

namespace MainApp

/-- The loop of `forward_kinematics` in `src/main.py` (the running direction
is called `angle` there); same structure as the copy in `src/kinematics.py`. -/
noncomputable def fkAux (x y angle : ℝ) : List Component → List (ℝ × ℝ)
  | [] => []
  | Component.joint j :: rest =>
      (x, y) :: fkAux x y (angle + j.angle) rest
  | Component.link l :: rest =>
      (x + l.length * Real.cos angle, y + l.length * Real.sin angle) ::
        fkAux (x + l.length * Real.cos angle)
          (y + l.length * Real.sin angle) angle rest

/-- Embeds `forward_kinematics` from `src/main.py`. -/
noncomputable def forward_kinematics (robot : Robot) : List (ℝ × ℝ) :=
  robot.base :: fkAux robot.base.1 robot.base.2 0 robot.components

/-- Embeds `inverse_kinematics` from `src/main.py`; formula for formula the
same computation as `inverse_kinematics_2dof` in `src/kinematics.py`. -/
noncomputable def inverse_kinematics (links : List Link)
    (target_end_effector_pos : ℝ × ℝ) : Except PyError IKResult :=
  match links with
  | [] => Except.error PyError.indexError
  | [_] => Except.error PyError.indexError
  | l1 :: l2 :: _ =>
      let L1 := l1.length
      let L2 := l2.length
      let x := target_end_effector_pos.1
      let y := target_end_effector_pos.2
      let d2 := x ^ 2 + y ^ 2
      let d := Real.sqrt d2
      let base_angle := atan2 y x
      if 2 * L1 * d = 0 then Except.error PyError.zeroDivisionError else
      let C := (L1 ^ 2 + d2 - L2 ^ 2) / (2 * L1 * d)
      if ¬(-1 ≤ C ∧ C ≤ 1) then Except.ok [] else
      if 2 * L1 * L2 = 0 then Except.error PyError.zeroDivisionError else
      let B := (L1 ^ 2 + L2 ^ 2 - d2) / (2 * L1 * L2)
      let c := Real.arccos C
      let b := Real.arccos B
      Except.ok
        [("elbow_up",
          [("q1", ⟨"q1", JointType.REVOLUTE, base_angle + c⟩),
           ("q2", ⟨"q2", JointType.REVOLUTE, b - Real.pi⟩)]),
         ("elbow_down",
          [("q1", ⟨"q1", JointType.REVOLUTE, base_angle - c⟩),
           ("q2", ⟨"q2", JointType.REVOLUTE, Real.pi - b⟩)])]

/-- Embeds `set_joint_angles` from `src/main.py`. -/
def set_joint_angles (robot : Robot)
    (new_joint_angles : List (String × Joint)) : Robot :=
  { robot with
    components := robot.components.map fun component =>
      match component with
      | Component.joint j =>
          match lookupKey j.id new_joint_angles with
          | some j2 => Component.joint { j with angle := j2.angle }
          | none => Component.joint j
      | Component.link l => Component.link l }

end MainApp

/-! Fixtures of `src/test.py` (`TestRobotFunctions.setUp`). -/

/-- `Link(id="l1", length=1.0)` from the test fixture. -/
def link1 : Link := ⟨"l1", 1⟩

/-- `Link(id="l2", length=1.0)` from the test fixture. -/
def link2 : Link := ⟨"l2", 1⟩

/-- `Joint(id="q1", type=REVOLUTE, angle=0.0)` from the test fixture. -/
def joint1 : Joint := ⟨"q1", JointType.REVOLUTE, 0⟩

/-- `Joint(id="q2", type=REVOLUTE, angle=0.0)` from the test fixture. -/
def joint2 : Joint := ⟨"q2", JointType.REVOLUTE, 0⟩

/-- The test robot `[q1, l1, q2, l2]` with base at the origin. -/
def robot0 : Robot :=
  { components :=
      [Component.joint joint1, Component.link link1,
       Component.joint joint2, Component.link link2] }

/-! Specification-side helper quantities, used to state claims. -/

/-- The quantity `C = (L1² + d² − L2²)/(2·L1·d)` of the Law-of-Cosines
reachability test, as a function of link lengths and target. -/
noncomputable def ikC (L1 L2 x y : ℝ) : ℝ :=
  (L1 ^ 2 + (x ^ 2 + y ^ 2) - L2 ^ 2) /
    (2 * L1 * Real.sqrt (x ^ 2 + y ^ 2))

/-- The quantity `B = (L1² + L2² − d²)/(2·L1·L2)`, the cosine of the interior
elbow angle. -/
noncomputable def ikB (L1 L2 x y : ℝ) : ℝ :=
  (L1 ^ 2 + L2 ^ 2 - (x ^ 2 + y ^ 2)) / (2 * L1 * L2)

/-- Sum of the angles of the `Joint` components of a list. -/
noncomputable def jointAngleSum : List Component → ℝ
  | [] => 0
  | Component.joint j :: rest => j.angle + jointAngleSum rest
  | Component.link _ :: rest => jointAngleSum rest

/-- The angle stored for joint `jid` in branch `branch` of an inverse
kinematics result, when present. -/
def branchJointAngle (r : Except PyError IKResult)
    (branch jid : String) : Option ℝ :=
  match r with
  | Except.error _ => none
  | Except.ok bs =>
      match lookupKey branch bs with
      | none => none
      | some b => Option.map Joint.angle (lookupKey jid b)

/-! Helper lemmas. -/

lemma fkAux_length (cs : List Component) :
    ∀ x y d : ℝ, (Kinematics.fkAux x y d cs).length = cs.length := by
  induction cs with
  | nil => intro x y d; simp [Kinematics.fkAux]
  | cons c rest ih => intro x y d; cases c <;> simp [Kinematics.fkAux, ih]

lemma fkAux_copies_equal (cs : List Component) :
    ∀ x y d : ℝ, Kinematics.fkAux x y d cs = MainApp.fkAux x y d cs := by
  induction cs with
  | nil => intro x y d; simp [Kinematics.fkAux, MainApp.fkAux]
  | cons c rest ih => intro x y d; cases c <;> simp [Kinematics.fkAux, MainApp.fkAux, ih]

lemma ik_reachable (l1 l2 : Link) (rest : List Link) (x y : ℝ)
    (h1 : 2 * l1.length * Real.sqrt (x ^ 2 + y ^ 2) ≠ 0)
    (hC : -1 ≤ ikC l1.length l2.length x y ∧ ikC l1.length l2.length x y ≤ 1)
    (h3 : 2 * l1.length * l2.length ≠ 0) :
    Kinematics.inverse_kinematics_2dof (l1 :: l2 :: rest) (x, y) =
      Except.ok
        [("elbow_up",
          [("q1", ⟨"q1", JointType.REVOLUTE,
              atan2 y x + Real.arccos (ikC l1.length l2.length x y)⟩),
           ("q2", ⟨"q2", JointType.REVOLUTE,
              Real.arccos (ikB l1.length l2.length x y) - Real.pi⟩)]),
         ("elbow_down",
          [("q1", ⟨"q1", JointType.REVOLUTE,
              atan2 y x - Real.arccos (ikC l1.length l2.length x y)⟩),
           ("q2", ⟨"q2", JointType.REVOLUTE,
              Real.pi - Real.arccos (ikB l1.length l2.length x y)⟩)])] := by
  simp only [ikC] at hC
  simp only [Kinematics.inverse_kinematics_2dof, ikC, ikB]
  rw [if_neg h1, if_neg (not_not_intro hC), if_neg h3]

lemma ik_origin (l1 l2 : Link) (rest : List Link) :
    Kinematics.inverse_kinematics_2dof (l1 :: l2 :: rest) (0, 0) =
      Except.error PyError.zeroDivisionError := by
  simp only [Kinematics.inverse_kinematics_2dof]
  rw [if_pos]
  norm_num [Real.sqrt_zero]

lemma atan2_zero_one : atan2 0 1 = 0 := by
  simp [atan2]

lemma arccos_half : Real.arccos (1 / 2) = Real.pi / 3 := by
  rw [← Real.cos_pi_div_three]
  exact Real.arccos_cos (by positivity) (by linarith [Real.pi_pos])

lemma ikC_fixture : ikC link1.length link2.length 1 0 = 1 / 2 := by
  norm_num [ikC, link1, link2, Real.sqrt_one]

lemma ikB_fixture : ikB link1.length link2.length 1 0 = 1 / 2 := by
  norm_num [ikB, link1, link2]

/-- The "elbow up" branch computed by the core for unit links and target
`(1, 0)`: both joint angles measured with `c = b = π/3`. -/
noncomputable def solUp : List (String × Joint) :=
  [("q1", ⟨"q1", JointType.REVOLUTE, Real.pi / 3⟩),
   ("q2", ⟨"q2", JointType.REVOLUTE, Real.pi / 3 - Real.pi⟩)]

/-- The "elbow down" branch computed by the core for unit links and target
`(1, 0)`. -/
noncomputable def solDown : List (String × Joint) :=
  [("q1", ⟨"q1", JointType.REVOLUTE, -(Real.pi / 3)⟩),
   ("q2", ⟨"q2", JointType.REVOLUTE, Real.pi - Real.pi / 3⟩)]

lemma ik_fixture (rest : List Link) :
    Kinematics.inverse_kinematics_2dof (link1 :: link2 :: rest) (1, 0) =
      Except.ok [("elbow_up", solUp), ("elbow_down", solDown)] := by
  rw [ik_reachable link1 link2 rest 1 0
    (by norm_num [link1, Real.sqrt_one])
    (by rw [ikC_fixture]; norm_num)
    (by simp [link1, link2])]
  rw [ikC_fixture, ikB_fixture, arccos_half, atan2_zero_one]
  simp [solUp, solDown]

lemma fk_robot0 : Kinematics.forward_kinematics robot0 =
    [(0, 0), (0, 0), (1, 0), (1, 0), (2, 0)] := by
  simp [Kinematics.forward_kinematics, Kinematics.fkAux, robot0,
    joint1, joint2, link1, link2]
  norm_num

lemma set_solUp : Kinematics.set_joint_angles robot0 solUp =
    { components :=
        [Component.joint ⟨"q1", JointType.REVOLUTE, Real.pi / 3⟩,
         Component.link link1,
         Component.joint ⟨"q2", JointType.REVOLUTE, Real.pi / 3 - Real.pi⟩,
         Component.link link2] } := by
  simp [Kinematics.set_joint_angles, robot0, solUp, lookupKey,
    joint1, joint2]

lemma set_solDown : Kinematics.set_joint_angles robot0 solDown =
    { components :=
        [Component.joint ⟨"q1", JointType.REVOLUTE, -(Real.pi / 3)⟩,
         Component.link link1,
         Component.joint ⟨"q2", JointType.REVOLUTE, Real.pi - Real.pi / 3⟩,
         Component.link link2] } := by
  simp [Kinematics.set_joint_angles, robot0, solDown, lookupKey,
    joint1, joint2]

lemma fk_solUp :
    Kinematics.forward_kinematics (Kinematics.set_joint_angles robot0 solUp) =
      [(0, 0), (0, 0), (1 / 2, Real.sqrt 3 / 2),
       (1 / 2, Real.sqrt 3 / 2), (1, 0)] := by
  rw [set_solUp]
  simp only [Kinematics.forward_kinematics, Kinematics.fkAux, link1, link2]
  have ha : (0 : ℝ) + Real.pi / 3 = Real.pi / 3 := by ring
  have hb : Real.pi / 3 + (Real.pi / 3 - Real.pi) = -(Real.pi / 3) := by ring
  rw [ha, hb]
  simp [Real.cos_pi_div_three, Real.sin_pi_div_three, Real.cos_neg, Real.sin_neg]
  norm_num

lemma fk_solDown :
    Kinematics.forward_kinematics (Kinematics.set_joint_angles robot0 solDown) =
      [(0, 0), (0, 0), (1 / 2, -(Real.sqrt 3 / 2)),
       (1 / 2, -(Real.sqrt 3 / 2)), (1, 0)] := by
  rw [set_solDown]
  simp only [Kinematics.forward_kinematics, Kinematics.fkAux, link1, link2]
  have ha : (0 : ℝ) + -(Real.pi / 3) = -(Real.pi / 3) := by ring
  have hb : -(Real.pi / 3) + (Real.pi - Real.pi / 3) = Real.pi / 3 := by ring
  rw [ha, hb]
  simp [Real.cos_pi_div_three, Real.sin_pi_div_three, Real.cos_neg, Real.sin_neg]
  norm_num

lemma fkAux_step (cs : List Component) :
    ∀ (x y d : ℝ) (i : ℕ) (hi : i < cs.length),
      (match cs[i] with
       | Component.joint _ =>
           ((x, y) :: Kinematics.fkAux x y d cs)[i + 1]? =
             ((x, y) :: Kinematics.fkAux x y d cs)[i]?
       | Component.link l =>
           ((x, y) :: Kinematics.fkAux x y d cs)[i + 1]? =
             Option.map
               (fun p =>
                 (p.1 + l.length * Real.cos (d + jointAngleSum (cs.take i)),
                  p.2 + l.length * Real.sin (d + jointAngleSum (cs.take i))))
               ((x, y) :: Kinematics.fkAux x y d cs)[i]?) := by
  induction cs with
  | nil => intro x y d i hi; simp at hi
  | cons c rest ih =>
    intro x y d i hi
    cases i with
    | zero =>
      cases c with
      | joint j => simp [Kinematics.fkAux]
      | link l => simp [Kinematics.fkAux, jointAngleSum]
    | succ i =>
      have hi' : i < rest.length := by simpa using hi
      cases c with
      | joint j =>
        have h := ih x y (d + j.angle) i hi'
        simp only [List.getElem_cons_succ, List.take_succ_cons, jointAngleSum,
          Kinematics.fkAux, List.getElem?_cons_succ] at h ⊢
        cases hc : rest[i] with
        | joint j2 =>
          simp only [hc] at h
          exact h
        | link l =>
          simp only [hc] at h
          rw [add_assoc] at h
          exact h
      | link l =>
        have h := ih (x + l.length * Real.cos d) (y + l.length * Real.sin d) d i hi'
        simp only [List.getElem_cons_succ, List.take_succ_cons, jointAngleSum,
          Kinematics.fkAux, List.getElem?_cons_succ] at h ⊢
        exact h

/-- C2: forward kinematics contract.  The output of `forward_kinematics` has
exactly `len(components) + 1` points, starts with the robot's base, is
`[base]` for a robot with zero components, and walking the components in
order, a `Joint` step appends a duplicate of the previous point while a
`Link` step advances the previous point by `length·cos(direction)` and
`length·sin(direction)`, where `direction` is the sum of the angles of the
joints already processed.  The function is total by construction. -/
theorem C2_forward_kinematics_contract (robot : Robot) :
    (Kinematics.forward_kinematics robot).length = robot.components.length + 1 ∧
    (Kinematics.forward_kinematics robot)[0]? = some robot.base ∧
    (robot.components = [] → Kinematics.forward_kinematics robot = [robot.base]) ∧
    ∀ (i : ℕ) (hi : i < robot.components.length),
      (match robot.components[i] with
       | Component.joint _ =>
           (Kinematics.forward_kinematics robot)[i + 1]? =
             (Kinematics.forward_kinematics robot)[i]?
       | Component.link l =>
           (Kinematics.forward_kinematics robot)[i + 1]? =
             Option.map
               (fun p =>
                 (p.1 + l.length * Real.cos (jointAngleSum (robot.components.take i)),
                  p.2 + l.length * Real.sin (jointAngleSum (robot.components.take i))))
               (Kinematics.forward_kinematics robot)[i]?) := by
  refine ⟨?_, ?_, ?_, ?_⟩
  · simp [Kinematics.forward_kinematics, fkAux_length]
  · simp [Kinematics.forward_kinematics]
  · intro h
    simp [Kinematics.forward_kinematics, h, Kinematics.fkAux]
  · intro i hi
    have h := fkAux_step robot.components robot.base.1 robot.base.2 0 i hi
    simp only [zero_add, Prod.mk.eta] at h
    exact h

/-- Witness for C2 at the test robot `[q1, l1, q2, l2]` in the zero pose:
component 1 is the link `l1`; the theorem's step relation sends the traced
point `(0, 0)` at index 1 to `(1, 0)` at index 2. -/
theorem C2_witness :
    1 < robot0.components.length ∧
    (Kinematics.forward_kinematics robot0)[2]? = some (1, 0) := by
  constructor
  · simp [robot0]
  · have h := (C2_forward_kinematics_contract robot0).2.2.2 1 (by simp [robot0])
    have hc : robot0.components[1] = Component.link link1 := by simp [robot0]
    rw [hc] at h
    rw [h, fk_robot0]
    have hs : jointAngleSum (robot0.components.take 1) = 0 := by
      simp [robot0, jointAngleSum, joint1]
    rw [hs]
    norm_num [link1]

/-- C3 (amended): forward kinematics of the canonical zero pose.  With
components `[q1, a1, q2, a2]`, both angles `0`, both lengths `1` and base at
the origin, `forward_kinematics` yields the five points
`[(0,0), (0,0), (1,0), (1,0), (2,0)]` — one point per component after the
base, each joint step duplicating the previous point — not the three-point
list `[(0,0), (1,0), (2,0)]` the claim states. -/
theorem C3_zero_pose_amended : Kinematics.forward_kinematics robot0 =
    [(0, 0), (0, 0), (1, 0), (1, 0), (2, 0)] :=
  fk_robot0

/-- C3 counterexample: on the zero pose the code returns a five-point list,
so it is not the three-point list `[(0,0), (1,0), (2,0)]` of the claim. -/
theorem C3_counterexample :
    Kinematics.forward_kinematics robot0 ≠
      [(0, 0), (1, 0), (2, 0)] := by
  rw [fk_robot0]
  intro h
  have := congrArg List.length h
  simp at this

/-- C1 (amended): inverse-kinematics round trip for unit links and target
`(1, 0)`.  The result contains both branches; applying `"elbow_up"` and
recomputing forward kinematics yields end effector exactly `(1, 0)` with the
intermediate elbow at `(0.5, √3/2)` (≈ `(0.5, 0.866)`), and `"elbow_down"`
yields the same end effector with elbow at `(0.5, -√3/2)` — mirror images
across the base-to-target line, but the elbow is not at `(0.5, ±1.0)` as the
claim states. -/
theorem C1_roundtrip_amended :
    Kinematics.inverse_kinematics_2dof [link1, link2] (1, 0) =
      Except.ok [("elbow_up", solUp), ("elbow_down", solDown)] ∧
    Kinematics.forward_kinematics (Kinematics.set_joint_angles robot0 solUp) =
      [(0, 0), (0, 0), (1 / 2, Real.sqrt 3 / 2),
       (1 / 2, Real.sqrt 3 / 2), (1, 0)] ∧
    Kinematics.forward_kinematics (Kinematics.set_joint_angles robot0 solDown) =
      [(0, 0), (0, 0), (1 / 2, -(Real.sqrt 3 / 2)),
       (1 / 2, -(Real.sqrt 3 / 2)), (1, 0)] :=
  ⟨ik_fixture [], fk_solUp, fk_solDown⟩

/-- C1 counterexample: after applying the `"elbow_up"` branch for unit links
and target `(1, 0)`, the recomputed chain has its elbow at `(1/2, √3/2)`
with `√3/2 < 0.87`, and no traced point equals the claimed elbow
`(0.5, 1.0)` — the claim's elbow value is off by more than the two-decimal
tolerance used by the repository's test. -/
theorem C1_counterexample :
    (Kinematics.forward_kinematics
        (Kinematics.set_joint_angles robot0 solUp))[2]? =
      some (1 / 2, Real.sqrt 3 / 2) ∧
    Real.sqrt 3 / 2 < 0.87 ∧
    ((0.5 : ℝ), (1.0 : ℝ)) ∉
      Kinematics.forward_kinematics (Kinematics.set_joint_angles robot0 solUp) := by
  have h2 : Real.sqrt 3 < 1.74 := (Real.sqrt_lt' (by norm_num)).mpr (by norm_num)
  have hs : Real.sqrt 3 / 2 < 0.87 := by linarith
  refine ⟨by rw [fk_solUp]; rfl, hs, ?_⟩
  rw [fk_solUp]
  intro hmem
  simp only [List.mem_cons, List.not_mem_nil, or_false] at hmem
  have hne : ((0.5 : ℝ), (1.0 : ℝ)) ≠ ((1 : ℝ) / 2, Real.sqrt 3 / 2) := by
    intro h
    rw [Prod.mk.injEq] at h
    linarith [h.2]
  rcases hmem with h | h | h | h | h
  · rw [Prod.mk.injEq] at h; norm_num at h
  · rw [Prod.mk.injEq] at h; norm_num at h
  · exact hne h
  · exact hne h
  · rw [Prod.mk.injEq] at h; norm_num at h

/-- C4: unreachable targets give an empty mapping.  For any two links and
target with the divisor of `C` nonzero (`L1 ≠ 0` and `d ≠ 0`, without which
`C` is not even defined and the code divides by zero), if
`C = (L1² + d² − L2²)/(2·L1·d)` lies outside `[-1, 1]` then
`inverse_kinematics_2dof` returns the empty mapping, with no branches and no
exception. -/
theorem C4_unreachable_empty (l1 l2 : Link) (x y : ℝ)
    (hL : l1.length ≠ 0)
    (hd : Real.sqrt (x ^ 2 + y ^ 2) ≠ 0)
    (hC : ¬(-1 ≤ ikC l1.length l2.length x y ∧
        ikC l1.length l2.length x y ≤ 1)) :
    Kinematics.inverse_kinematics_2dof [l1, l2] (x, y) = Except.ok [] := by
  simp only [ikC] at hC
  simp only [Kinematics.inverse_kinematics_2dof]
  rw [if_neg (by exact mul_ne_zero (mul_ne_zero two_ne_zero hL) hd), if_pos hC]

/-- Witness for C4: two links of length `1` and target `(3.5, 0)` have
`C = 1.75 > 1`, and inverse kinematics returns the empty mapping. -/
theorem C4_witness :
    link1.length ≠ 0 ∧
    Real.sqrt ((3.5 : ℝ) ^ 2 + (0 : ℝ) ^ 2) ≠ 0 ∧
    ¬(-1 ≤ ikC link1.length link2.length 3.5 0 ∧
        ikC link1.length link2.length 3.5 0 ≤ 1) ∧
    Kinematics.inverse_kinematics_2dof [link1, link2] (3.5, 0) =
      Except.ok [] := by
  have hsq : Real.sqrt ((3.5 : ℝ) ^ 2 + (0 : ℝ) ^ 2) = 3.5 := by
    rw [show ((3.5 : ℝ) ^ 2 + (0 : ℝ) ^ 2) = 3.5 ^ 2 by norm_num,
      Real.sqrt_sq (by norm_num)]
  have hC : ikC link1.length link2.length 3.5 0 = 1.75 := by
    simp only [ikC, link1, link2]
    rw [hsq]
    norm_num
  exact ⟨by norm_num [link1], by rw [hsq]; norm_num, by rw [hC]; norm_num,
    C4_unreachable_empty link1 link2 3.5 0 (by norm_num [link1])
      (by rw [hsq]; norm_num) (by rw [hC]; norm_num)⟩

/-- C5: branch formulas for reachable targets.  Whenever the geometric
quantities are defined (`L1 ≠ 0`, `L2 ≠ 0`, `d > 0`) and `C ∈ [-1, 1]`, the
result holds exactly the two keys `"elbow_up"` and `"elbow_down"`, each
mapping the fixed identifiers `"q1"` and `"q2"` to newly constructed
`REVOLUTE` joints with angles `base_angle + c`, `b − π` and `base_angle − c`,
`π − b` respectively, where `base_angle = atan2 y x`, `c = acos C`,
`b = acos B`. -/
theorem C5_branch_formulas (l1 l2 : Link) (x y : ℝ)
    (hL1 : l1.length ≠ 0) (hL2 : l2.length ≠ 0)
    (hd : 0 < Real.sqrt (x ^ 2 + y ^ 2))
    (hC : -1 ≤ ikC l1.length l2.length x y ∧
        ikC l1.length l2.length x y ≤ 1) :
    Kinematics.inverse_kinematics_2dof [l1, l2] (x, y) =
      Except.ok
        [("elbow_up",
          [("q1", ⟨"q1", JointType.REVOLUTE,
              atan2 y x + Real.arccos (ikC l1.length l2.length x y)⟩),
           ("q2", ⟨"q2", JointType.REVOLUTE,
              Real.arccos (ikB l1.length l2.length x y) - Real.pi⟩)]),
         ("elbow_down",
          [("q1", ⟨"q1", JointType.REVOLUTE,
              atan2 y x - Real.arccos (ikC l1.length l2.length x y)⟩),
           ("q2", ⟨"q2", JointType.REVOLUTE,
              Real.pi - Real.arccos (ikB l1.length l2.length x y)⟩)])] :=
  ik_reachable l1 l2 [] x y
    (mul_ne_zero (mul_ne_zero two_ne_zero hL1) hd.ne') hC
    (mul_ne_zero (mul_ne_zero two_ne_zero hL1) hL2)

/-- Witness for C5: unit links and target `(1, 0)` satisfy the hypotheses
(`C = 1/2`), and the two branches evaluate to `q1 = ±π/3` with
`q2 = ∓(2π/3)`. -/
theorem C5_witness :
    link1.length ≠ 0 ∧ link2.length ≠ 0 ∧
    0 < Real.sqrt ((1 : ℝ) ^ 2 + (0 : ℝ) ^ 2) ∧
    (-1 ≤ ikC link1.length link2.length 1 0 ∧
      ikC link1.length link2.length 1 0 ≤ 1) ∧
    Kinematics.inverse_kinematics_2dof [link1, link2] (1, 0) =
      Except.ok [("elbow_up", solUp), ("elbow_down", solDown)] := by
  refine ⟨by norm_num [link1], by norm_num [link2],
    by norm_num [Real.sqrt_one], ⟨by rw [ikC_fixture]; norm_num,
      by rw [ikC_fixture]; norm_num⟩, ?_⟩
  rw [C5_branch_formulas link1 link2 1 0 (by norm_num [link1])
    (by norm_num [link2]) (by norm_num [Real.sqrt_one])
    ⟨by rw [ikC_fixture]; norm_num, by rw [ikC_fixture]; norm_num⟩]
  rw [ikC_fixture, ikB_fixture, arccos_half, atan2_zero_one]
  simp [solUp, solDown]

/-- A third unit link, used to call inverse kinematics on a 3-link chain. -/
def link3 : Link := ⟨"l3", 1⟩

/-- C6 (amended): link-count behaviour of `inverse_kinematics_2dof`.  With
fewer than two links the call fails fast with `IndexError` (from reading
`links[0]` / `links[1]`), but with more than two links it does not fail:
it silently computes the 2-link solution of the first two links, ignoring
the rest. -/
theorem C6_link_count_behavior :
    (∀ t : ℝ × ℝ,
      Kinematics.inverse_kinematics_2dof [] t =
        Except.error PyError.indexError) ∧
    (∀ (l : Link) (t : ℝ × ℝ),
      Kinematics.inverse_kinematics_2dof [l] t =
        Except.error PyError.indexError) ∧
    (∀ (l1 l2 : Link) (rest : List Link) (t : ℝ × ℝ),
      Kinematics.inverse_kinematics_2dof (l1 :: l2 :: rest) t =
        Kinematics.inverse_kinematics_2dof [l1, l2] t) :=
  ⟨fun _ => rfl, fun _ _ => rfl, fun _ _ _ _ => rfl⟩

/-- C6 counterexample: called on the three-link chain `[l1, l2, l3]` with
target `(1, 0)`, the code silently returns the full two-branch solution of
the first two links instead of failing fast. -/
theorem C6_counterexample :
    Kinematics.inverse_kinematics_2dof [link1, link2, link3] (1, 0) =
      Except.ok [("elbow_up", solUp), ("elbow_down", solDown)] :=
  ik_fixture [link3]

/-- C7 (amended): a target at the exact origin makes the divisor `2·L1·d`
zero and the code raises an unguarded `ZeroDivisionError` — a Python
arithmetic fault, not a distinct degenerate-configuration error (no NaN or
infinite angles are returned, because the exception aborts the call). -/
theorem C7_origin_division_fault (l1 l2 : Link) (rest : List Link) :
    Kinematics.inverse_kinematics_2dof (l1 :: l2 :: rest) (0, 0) =
      Except.error PyError.zeroDivisionError :=
  ik_origin l1 l2 rest

/-- C7 counterexample: with the unit test links and target `(0, 0)` the call
ends in the unguarded division-by-zero fault, so the condition is not
reported as a distinct detectable error kind as the claim requires. -/
theorem C7_counterexample :
    Kinematics.inverse_kinematics_2dof [link1, link2] (0, 0) =
      Except.error PyError.zeroDivisionError :=
  ik_origin link1 link2 []

/-- C8: angle-application frame property.  `set_joint_angles` keeps the base
and the component count; pointwise, every `Link` component is left entirely
untouched, every `Joint` whose identifier is a key of the solution gets
exactly the solution entry's angle with its identifier and type unchanged,
and every `Joint` whose identifier is not a key is left unchanged. -/
theorem C8_set_joint_angles_frame (robot : Robot)
    (sol : List (String × Joint)) :
    (Kinematics.set_joint_angles robot sol).base = robot.base ∧
    (Kinematics.set_joint_angles robot sol).components.length =
      robot.components.length ∧
    ∀ (i : ℕ) (hi : i < robot.components.length),
      (match robot.components[i] with
       | Component.link l =>
           (Kinematics.set_joint_angles robot sol).components[i]? =
             some (Component.link l)
       | Component.joint j =>
           match lookupKey j.id sol with
           | some j2 =>
               (Kinematics.set_joint_angles robot sol).components[i]? =
                 some (Component.joint ⟨j.id, j.type, j2.angle⟩)
           | none =>
               (Kinematics.set_joint_angles robot sol).components[i]? =
                 some (Component.joint j)) := by
  refine ⟨rfl, by simp [Kinematics.set_joint_angles], ?_⟩
  intro i hi
  cases hc : robot.components[i] with
  | joint j =>
    cases hl : lookupKey j.id sol with
    | some j2 =>
      simp [Kinematics.set_joint_angles, List.getElem?_map,
        List.getElem?_eq_getElem hi, hc, hl]
    | none =>
      simp [Kinematics.set_joint_angles, List.getElem?_map,
        List.getElem?_eq_getElem hi, hc, hl]
  | link l =>
    simp [Kinematics.set_joint_angles, List.getElem?_map,
      List.getElem?_eq_getElem hi, hc]

/-- A solution mapping containing only `"q1"` (angle `1`), for the partial
application instance of C8. -/
def solQ1 : List (String × Joint) :=
  [("q1", ⟨"q1", JointType.REVOLUTE, 1⟩)]

/-- Witness for C8: applying a solution containing only `"q1"` to the test
robot leaves the joint `"q2"` (component index 2) completely unchanged. -/
theorem C8_witness :
    2 < robot0.components.length ∧
    (Kinematics.set_joint_angles robot0 solQ1).components[2]? =
      some (Component.joint joint2) := by
  constructor
  · simp [robot0]
  · have h := (C8_set_joint_angles_frame robot0 solQ1).2.2 2 (by simp [robot0])
    have hc : robot0.components[2] = Component.joint joint2 := by simp [robot0]
    rw [hc] at h
    have hl : lookupKey joint2.id solQ1 = none := by
      simp [lookupKey, solQ1, joint2]
    simp only [hl] at h
    exact h

/-- C9: the two copies of the kinematics core are extensionally equal.  For
every robot, `forward_kinematics` of `src/kinematics.py` and of `src/main.py`
return the same point sequence; for every link list and target,
`inverse_kinematics_2dof` and `inverse_kinematics` return the same outcome
(same mapping, or the same raised error); and the two `set_joint_angles`
produce the same final robot state. -/
theorem C9_duplicated_core_equal :
    (∀ robot : Robot,
      Kinematics.forward_kinematics robot = MainApp.forward_kinematics robot) ∧
    (∀ (links : List Link) (target : ℝ × ℝ),
      Kinematics.inverse_kinematics_2dof links target =
        MainApp.inverse_kinematics links target) ∧
    (∀ (robot : Robot) (sol : List (String × Joint)),
      Kinematics.set_joint_angles robot sol =
        MainApp.set_joint_angles robot sol) := by
  refine ⟨?_, ?_, ?_⟩
  · intro robot
    simp [Kinematics.forward_kinematics, MainApp.forward_kinematics,
      fkAux_copies_equal]
  · intro links target
    match links with
    | [] => rfl
    | [_] => rfl
    | _ :: _ :: _ => rfl
  · intro robot sol
    rfl

/-- C10: elbow-branch sign symmetry.  For every reachable, non-degenerate
input (positive link lengths, `d > 0`, `C ∈ [-1, 1]`), the `"q2"` angle of
`"elbow_up"` is the exact negation of the `"q2"` angle of `"elbow_down"` and
lies in `[-π, 0]` while the latter lies in `[0, π]`, and the two `"q1"`
angles sum to exactly `2·atan2 y x`. -/
theorem C10_branch_symmetry (l1 l2 : Link) (x y : ℝ)
    (hL1 : 0 < l1.length) (hL2 : 0 < l2.length)
    (hd : 0 < Real.sqrt (x ^ 2 + y ^ 2))
    (hC : -1 ≤ ikC l1.length l2.length x y ∧
        ikC l1.length l2.length x y ≤ 1) :
    ∃ u1 u2 v1 v2 : ℝ,
      branchJointAngle (Kinematics.inverse_kinematics_2dof [l1, l2] (x, y))
        "elbow_up" "q1" = some u1 ∧
      branchJointAngle (Kinematics.inverse_kinematics_2dof [l1, l2] (x, y))
        "elbow_up" "q2" = some u2 ∧
      branchJointAngle (Kinematics.inverse_kinematics_2dof [l1, l2] (x, y))
        "elbow_down" "q1" = some v1 ∧
      branchJointAngle (Kinematics.inverse_kinematics_2dof [l1, l2] (x, y))
        "elbow_down" "q2" = some v2 ∧
      u2 = -v2 ∧ -Real.pi ≤ u2 ∧ u2 ≤ 0 ∧ 0 ≤ v2 ∧ v2 ≤ Real.pi ∧
      u1 + v1 = 2 * atan2 y x := by
  have hik := ik_reachable l1 l2 [] x y
    (mul_ne_zero (mul_ne_zero two_ne_zero hL1.ne') hd.ne') hC
    (mul_ne_zero (mul_ne_zero two_ne_zero hL1.ne') hL2.ne')
  refine ⟨atan2 y x + Real.arccos (ikC l1.length l2.length x y),
    Real.arccos (ikB l1.length l2.length x y) - Real.pi,
    atan2 y x - Real.arccos (ikC l1.length l2.length x y),
    Real.pi - Real.arccos (ikB l1.length l2.length x y),
    ?_, ?_, ?_, ?_, by ring, ?_, ?_, ?_, ?_, by ring⟩
  · rw [hik]; simp [branchJointAngle, lookupKey]
  · rw [hik]; simp [branchJointAngle, lookupKey]
  · rw [hik]; simp [branchJointAngle, lookupKey]
  · rw [hik]; simp [branchJointAngle, lookupKey]
  · have := Real.arccos_nonneg (ikB l1.length l2.length x y); linarith
  · have := Real.arccos_le_pi (ikB l1.length l2.length x y); linarith
  · have := Real.arccos_le_pi (ikB l1.length l2.length x y); linarith
  · have := Real.arccos_nonneg (ikB l1.length l2.length x y); linarith

/-- Witness for C10: unit links and target `(1, 0)` satisfy the hypotheses,
and the branch angles exhibit the stated symmetry. -/
theorem C10_witness :
    0 < link1.length ∧ 0 < link2.length ∧
    0 < Real.sqrt ((1 : ℝ) ^ 2 + (0 : ℝ) ^ 2) ∧
    (-1 ≤ ikC link1.length link2.length 1 0 ∧
      ikC link1.length link2.length 1 0 ≤ 1) ∧
    (∃ u1 u2 v1 v2 : ℝ,
      branchJointAngle
        (Kinematics.inverse_kinematics_2dof [link1, link2] (1, 0))
        "elbow_up" "q1" = some u1 ∧
      branchJointAngle
        (Kinematics.inverse_kinematics_2dof [link1, link2] (1, 0))
        "elbow_up" "q2" = some u2 ∧
      branchJointAngle
        (Kinematics.inverse_kinematics_2dof [link1, link2] (1, 0))
        "elbow_down" "q1" = some v1 ∧
      branchJointAngle
        (Kinematics.inverse_kinematics_2dof [link1, link2] (1, 0))
        "elbow_down" "q2" = some v2 ∧
      u2 = -v2 ∧ -Real.pi ≤ u2 ∧ u2 ≤ 0 ∧ 0 ≤ v2 ∧ v2 ≤ Real.pi ∧
      u1 + v1 = 2 * atan2 (0 : ℝ) (1 : ℝ)) :=
  ⟨by norm_num [link1], by norm_num [link2], by norm_num [Real.sqrt_one],
    ⟨by rw [ikC_fixture]; norm_num, by rw [ikC_fixture]; norm_num⟩,
    C10_branch_symmetry link1 link2 1 0 (by norm_num [link1])
      (by norm_num [link2]) (by norm_num [Real.sqrt_one])
      ⟨by rw [ikC_fixture]; norm_num, by rw [ikC_fixture]; norm_num⟩⟩
